import Mathlib

/-!
Shallow embedding of the quiz scheduling and state-transition engine
(`src/scheduler.py` and `src/results_tracker.py` of altock/claude-quiz-hook),
together with proofs of its specification properties.

Timestamps are Python timezone-naive `datetime` values, modelled by a day
number and the microseconds elapsed since that day's midnight.  Python dicts
used as maps (the `topic_scores` table) are modelled as insertion-ordered
association lists, and `dict.get(key, default)` on optional record fields is
modelled with `Option.getD`.
-/

namespace QuizHook

/-- A timezone-naive local timestamp.  `day` is the proleptic day number with
day 0 chosen to be a Monday, so that Python's `datetime.weekday()`
(Monday = 0 .. Sunday = 6) is `Int.emod day 7`; `usec` is the microseconds
since midnight of that day. -/
structure DateTime where
  day : Int
  usec : Int
  deriving DecidableEq, Repr

/-- Microseconds in one day. -/
def usecPerDay : Int := 86400000000

/-- Python `t.weekday()`: Monday = 0 .. Sunday = 6.  (`%` on `Int` is
`Int.emod`, which agrees with Python `%` for a positive modulus.) -/
def DateTime.weekday (t : DateTime) : Int :=
  t.day % 7

/-- Python `t + timedelta(days = d)`: shifts the date, keeps the time of day. -/
def DateTime.addDays (t : DateTime) (d : Int) : DateTime :=
  ⟨t.day + d, t.usec⟩

/-- Python `t + timedelta(hours = h)`, with the floor-division normalisation
`timedelta` performs carried into the day number. -/
def DateTime.addHours (t : DateTime) (h : Int) : DateTime :=
  let total := t.day * usecPerDay + t.usec + h * 3600000000
  ⟨total / usecPerDay, total % usecPerDay⟩

/-- Python `t.replace(hour = h, minute = 0, second = 0, microsecond = 0)`. -/
def DateTime.replaceTime (t : DateTime) (h : Int) : DateTime :=
  ⟨t.day, h * 3600000000⟩

/-- Python `a <= b` on naive datetimes: lexicographic on (date, time of day). -/
def DateTime.le (a b : DateTime) : Bool :=
  decide (a.day < b.day ∨ (a.day = b.day ∧ a.usec ≤ b.usec))

/-- `class ScheduleType(Enum)` from `scheduler.py`. -/
inductive ScheduleType where
  | SAME_DAY
  | NEXT_DAY
  | WEEKLY
  | ON_DEMAND
  deriving DecidableEq, Repr

/-- The `.value` wire string of each enum member. -/
def ScheduleType.value : ScheduleType → String
  | .SAME_DAY => "same_day"
  | .NEXT_DAY => "next_day"
  | .WEEKLY => "weekly"
  | .ON_DEMAND => "on_demand"

/-- Python `ScheduleType(s)`: enum lookup by value.  Raises `ValueError` on an
unrecognised string, modelled as `none`. -/
def ScheduleType.ofValue (s : String) : Option ScheduleType :=
  if s = "same_day" then some .SAME_DAY
  else if s = "next_day" then some .NEXT_DAY
  else if s = "weekly" then some .WEEKLY
  else if s = "on_demand" then some .ON_DEMAND
  else none

/-- `DEFAULT_CONFIG` from `scheduler.py`, as a typed record.  A config dict is
read with `config.get(key, default)`; the claims below use well-formed configs
so every key is present. -/
structure Config where
  same_day_delay_hours : Int
  next_day_hour : Int
  weekly_day : Int
  min_session_minutes : Nat
  min_activities : Nat
  deriving Repr

def DEFAULT_CONFIG : Config :=
  { same_day_delay_hours := 4
    next_day_hour := 9
    weekly_day := 4
    min_session_minutes := 15
    min_activities := 5 }

/-- The `stats` sub-dict of a session summary; `total_activities` may be
absent (`stats.get("total_activities", 0)`). -/
structure SessionStats where
  total_activities : Option Nat

/-- A session summary dict as read by `should_schedule_quiz`; both keys may be
absent (`summary.get(key, default)`). -/
structure SessionSummary where
  duration_minutes : Option Nat
  stats : Option SessionStats

/-- `should_schedule_quiz(summary, config)` from `scheduler.py`. -/
def should_schedule_quiz (summary : SessionSummary) (config : Config) : Bool :=
  let duration := summary.duration_minutes.getD 0
  let stats := summary.stats.getD ⟨none⟩
  let total_activities := stats.total_activities.getD 0
  if duration < config.min_session_minutes then false
  else if total_activities < config.min_activities then false
  else true

/-- `@dataclass QuizSchedule` from `scheduler.py`.  `created_at` is filled in
by `__post_init__` with the current time when not given. -/
structure QuizSchedule where
  session_id : String
  schedule_type : ScheduleType
  scheduled_for : DateTime
  summary_path : String
  created_at : DateTime
  deriving DecidableEq, Repr

/-- `schedule_quiz(session_id, schedule_type, summary_path, config)` from
`scheduler.py`, with `datetime.now()` passed explicitly as `now`. -/
def schedule_quiz (session_id : String) (schedule_type : ScheduleType)
    (summary_path : String) (config : Config) (now : DateTime) : QuizSchedule :=
  let scheduled_for :=
    match schedule_type with
    | .SAME_DAY =>
        let delay_hours := config.same_day_delay_hours
        now.addHours delay_hours
    | .NEXT_DAY =>
        let tomorrow := now.addDays 1
        let next_day_hour := config.next_day_hour
        tomorrow.replaceTime next_day_hour
    | .WEEKLY =>
        let weekly_day := config.weekly_day
        let days_ahead := weekly_day - now.weekday
        let days_ahead := if days_ahead ≤ 0 then days_ahead + 7 else days_ahead
        let target_date := now.addDays days_ahead
        target_date.replaceTime 9
    | .ON_DEMAND => now
  { session_id := session_id
    schedule_type := schedule_type
    scheduled_for := scheduled_for
    summary_path := summary_path
    created_at := now }

/-- An entry of `pending_quizzes`: the dict produced by `QuizSchedule.to_dict`,
with the ISO-8601 timestamps kept as their parsed values and the `"type"` key
as its wire string. -/
structure PendingQuiz where
  session_id : String
  type : String
  scheduled_for : DateTime
  summary_path : String
  created_at : DateTime
  deriving DecidableEq, Repr

/-- `QuizSchedule.to_dict` from `scheduler.py`. -/
def QuizSchedule.to_dict (q : QuizSchedule) : PendingQuiz :=
  { session_id := q.session_id
    type := q.schedule_type.value
    scheduled_for := q.scheduled_for
    summary_path := q.summary_path
    created_at := q.created_at }

/-- A raw serialized quiz dict as consumed by `QuizSchedule.from_dict`: the
`"type"` key is an arbitrary string, and `"created_at"` may be absent
(`data.get("created_at", datetime.now().isoformat())`). -/
structure QuizDict where
  session_id : String
  type : String
  scheduled_for : DateTime
  summary_path : String
  created_at : Option DateTime
  deriving DecidableEq, Repr

/-- `QuizSchedule.from_dict(data)` from `scheduler.py`, with `datetime.now()`
passed explicitly.  `ScheduleType(data["type"])` raises `ValueError` on an
unrecognised string, modelled as `none`. -/
def QuizSchedule.from_dict (data : QuizDict) (now : DateTime) : Option QuizSchedule :=
  match ScheduleType.ofValue data.type with
  | none => none
  | some st =>
      some { session_id := data.session_id
             schedule_type := st
             scheduled_for := data.scheduled_for
             summary_path := data.summary_path
             created_at := data.created_at.getD now }

/-- One `{correct, total}` counter bucket of `topic_scores`. -/
structure Score where
  correct : Nat
  total : Nat
  deriving DecidableEq, Repr

/-- The `topic_scores` dict: a Python dict from topic/tag string to a bucket,
modelled as an insertion-ordered association list. -/
abbrev ScoreMap := List (String × Score)

/-- Python `key in scores` on the dict. -/
def containsKey : ScoreMap → String → Bool
  | [], _ => false
  | (k, _) :: rest, key => if k = key then true else containsKey rest key

/-- Python `scores[key]` lookup (first entry with the key). -/
def lookupScore : ScoreMap → String → Option Score
  | [], _ => none
  | (k, s) :: rest, key => if k = key then some s else lookupScore rest key

/-- Python `scores[key]["total"] += 1; if correct: scores[key]["correct"] += 1`
on the dict: updates the entry holding the key in place. -/
def incrKey : ScoreMap → String → Bool → ScoreMap
  | [], _, _ => []
  | (k, s) :: rest, key, correct =>
    if k = key then
      (k, { correct := s.correct + (if correct then 1 else 0), total := s.total + 1 }) :: rest
    else (k, s) :: incrKey rest key correct

/-- The per-key idiom repeated in `calculate_topic_scores` and
`merge_result_into_state`:
`if key not in scores: scores[key] = {"correct": 0, "total": 0}` followed by
`scores[key]["total"] += 1; if correct: scores[key]["correct"] += 1`.
Assigning a fresh key to a Python dict appends the entry. -/
def bumpScore (scores : ScoreMap) (key : String) (correct : Bool) : ScoreMap :=
  let scores := if containsKey scores key then scores else scores ++ [(key, ⟨0, 0⟩)]
  incrKey scores key correct

/-- One per-question outcome of a quiz result document.  All three keys may be
absent: the code reads `question.get("type", "unknown")`,
`question.get("correct", False)` and `question.get("tags", [])`. -/
structure Question where
  type : Option String
  correct : Option Bool
  tags : Option (List String)
  deriving DecidableEq, Repr

/-- A quiz result document as consumed by the aggregation functions; only the
`"questions"` list is read (`result.get("questions", [])`). -/
structure QuizResult where
  questions : List Question
  deriving DecidableEq, Repr

/-- `calculate_topic_scores(results)` from `results_tracker.py`. -/
def calculate_topic_scores (results : List QuizResult) : ScoreMap :=
  results.foldl
    (fun scores result =>
      result.questions.foldl
        (fun scores question =>
          let qtype := question.type.getD "unknown"
          let correct := question.correct.getD false
          let tags := question.tags.getD []
          let scores := bumpScore scores qtype correct
          tags.foldl (fun scores tag => bumpScore scores tag correct) scores)
        scores)
    []

/-- An entry of `completed_quizzes`: `{session_id, completed_at, result}`. -/
structure CompletedQuiz where
  session_id : String
  completed_at : DateTime
  result : QuizResult
  deriving DecidableEq, Repr

/-- The per-project quiz state document.  The default state written by
`load_quiz_state` has no `topic_scores` key, so that field is an `Option`
(`merge_result_into_state` creates it on demand). -/
structure ProjectState where
  project : String
  sessions : List String
  pending_quizzes : List PendingQuiz
  completed_quizzes : List CompletedQuiz
  topic_scores : Option ScoreMap
  deriving DecidableEq, Repr

/-- The possible outcomes of reading the state file
`<project>/.claude/quiz-state.json`: absent, present but with JSON that fails
to parse (or unreadable), or present with a well-formed state document. -/
inductive StateFile where
  | missing
  | malformed
  | valid (state : ProjectState)

/-- `load_quiz_state(project_path)` from `scheduler.py`: returns the parsed
document when the file exists and parses, and otherwise — file missing, or
`json.JSONDecodeError` / `IOError` — falls through to the default state built
from the project directory's name. -/
def load_quiz_state (project_name : String) (file : StateFile) : ProjectState :=
  match file with
  | .valid st => st
  | .missing =>
      { project := project_name
        sessions := []
        pending_quizzes := []
        completed_quizzes := []
        topic_scores := none }
  | .malformed =>
      { project := project_name
        sessions := []
        pending_quizzes := []
        completed_quizzes := []
        topic_scores := none }

/-- `get_due_quizzes(state)` from `scheduler.py`, with `datetime.now()` passed
explicitly: loops over `pending_quizzes` appending every quiz with
`scheduled_for <= now` to `due`. -/
def get_due_quizzes (state : ProjectState) (now : DateTime) : List PendingQuiz :=
  state.pending_quizzes.foldl
    (fun due quiz => if DateTime.le quiz.scheduled_for now then due ++ [quiz] else due)
    []

/-- `add_pending_quiz(state, schedule)` from `scheduler.py`. -/
def add_pending_quiz (state : ProjectState) (schedule : QuizSchedule) : ProjectState :=
  { state with pending_quizzes := state.pending_quizzes ++ [schedule.to_dict] }

/-- `mark_quiz_completed(state, session_id, result)` from `scheduler.py`, with
`datetime.now()` passed explicitly as `now`. -/
def mark_quiz_completed (state : ProjectState) (session_id : String)
    (result : QuizResult) (now : DateTime) : ProjectState :=
  { state with
    pending_quizzes :=
      state.pending_quizzes.filter (fun q => q.session_id ≠ session_id)
    completed_quizzes :=
      state.completed_quizzes ++
        [{ session_id := session_id, completed_at := now, result := result }] }

/-- `merge_result_into_state(state, result)` from `results_tracker.py`. -/
def merge_result_into_state (state : ProjectState) (result : QuizResult) : ProjectState :=
  let scores :=
    match state.topic_scores with
    | none => []
    | some ts => ts
  let scores :=
    result.questions.foldl
      (fun scores question =>
        let qtype := question.type.getD "unknown"
        let correct := question.correct.getD false
        let tags := question.tags.getD []
        let scores := bumpScore scores qtype correct
        tags.foldl (fun scores tag => bumpScore scores tag correct) scores)
      scores
  { state with topic_scores := some scores }

/-- The shared per-question accumulation step: both `calculate_topic_scores`
and `merge_result_into_state` run exactly these statements for one question
(their loop bodies are the same five lines of code). -/
def scoreQuestion (scores : ScoreMap) (question : Question) : ScoreMap :=
  let qtype := question.type.getD "unknown"
  let correct := question.correct.getD false
  let tags := question.tags.getD []
  let scores := bumpScore scores qtype correct
  tags.foldl (fun scores tag => bumpScore scores tag correct) scores

/-- The bucket stored for a key, reading an absent key as zero counters. -/
def scoreOf (m : ScoreMap) (key : String) : Score :=
  (lookupScore m key).getD ⟨0, 0⟩

/-- How many times one question touches bucket `j` through its tag list. -/
def countTag : List String → String → Nat
  | [], _ => 0
  | t :: ts, j => (if t = j then 1 else 0) + countTag ts j

/-- How many times one question touches bucket `j`: once through its type and
once per occurrence of `j` among its tags. -/
def questionHits (q : Question) (j : String) : Nat :=
  (if q.type.getD "unknown" = j then 1 else 0) + countTag (q.tags.getD []) j

/-- The touches of bucket `j` that also count as correct. -/
def questionCorrectHits (q : Question) (j : String) : Nat :=
  if q.correct.getD false then questionHits q j else 0

/-- Total touches of bucket `j` by a whole result document. -/
def resultHits (r : QuizResult) (j : String) : Nat :=
  (r.questions.map (fun q => questionHits q j)).sum

/-- Total correct touches of bucket `j` by a whole result document. -/
def resultCorrectHits (r : QuizResult) (j : String) : Nat :=
  (r.questions.map (fun q => questionCorrectHits q j)).sum

/-- Every bucket entry of the map has `correct ≤ total`. -/
def scoreMapWF (m : ScoreMap) : Prop :=
  ∀ p ∈ m, p.2.correct ≤ p.2.total

/-- The default state document of a fresh project, as a concrete test value. -/
def sampleState : ProjectState :=
  { project := "p", sessions := [], pending_quizzes := [],
    completed_quizzes := [], topic_scores := none }

/-- A one-question result document used as a concrete test input. -/
def sampleResult : QuizResult :=
  ⟨[{ type := some "A", correct := some true, tags := some ["t"] }]⟩

/-! ## General lemmas about the embedded operations -/

theorem containsKey_eq_isSome (m : ScoreMap) (key : String) :
    containsKey m key = (lookupScore m key).isSome := by
  induction m with
  | nil => rfl
  | cons p rest ih =>
      obtain ⟨k, s⟩ := p
      simp only [containsKey, lookupScore]
      split_ifs <;> simp [ih]

theorem lookupScore_append (m m' : ScoreMap) (j : String) :
    lookupScore (m ++ m') j =
      match lookupScore m j with
      | some s => some s
      | none => lookupScore m' j := by
  induction m with
  | nil => simp [lookupScore]
  | cons p rest ih =>
      obtain ⟨k, s⟩ := p
      simp only [List.cons_append, lookupScore]
      split_ifs <;> simp [ih]

theorem lookupScore_incrKey (m : ScoreMap) (key j : String) (c : Bool) :
    lookupScore (incrKey m key c) j =
      if j = key then
        (lookupScore m key).map
          (fun s => ⟨s.correct + (if c then 1 else 0), s.total + 1⟩)
      else lookupScore m j := by
  induction m with
  | nil =>
      simp only [incrKey, lookupScore]
      split_ifs <;> rfl
  | cons p rest ih =>
      obtain ⟨k, s⟩ := p
      by_cases hk : k = key <;> by_cases hj : j = key <;> by_cases hkj : k = j <;>
        simp_all [incrKey, lookupScore]

theorem lookupScore_mem (m : ScoreMap) (j : String) (s : Score)
    (h : lookupScore m j = some s) : (j, s) ∈ m := by
  induction m with
  | nil => simp [lookupScore] at h
  | cons p rest ih =>
      obtain ⟨k, v⟩ := p
      simp only [lookupScore] at h
      split_ifs at h with hk
      · subst hk
        obtain rfl : v = s := Option.some.inj h
        exact List.mem_cons_self _ _
      · exact List.mem_cons_of_mem _ (ih h)

theorem scoreOf_bumpScore (m : ScoreMap) (key j : String) (c : Bool) :
    scoreOf (bumpScore m key c) j =
      if key = j then
        ⟨(scoreOf m j).correct + (if c then 1 else 0), (scoreOf m j).total + 1⟩
      else scoreOf m j := by
  unfold bumpScore scoreOf
  by_cases hc : containsKey m key
  · rw [if_pos hc, lookupScore_incrKey]
    rw [containsKey_eq_isSome] at hc
    obtain ⟨s, hs⟩ := Option.isSome_iff_exists.mp hc
    by_cases hj : j = key
    · subst hj
      simp [hs]
    · have hj' : ¬key = j := fun h => hj h.symm
      simp [hj, hj']
  · rw [if_neg hc, lookupScore_incrKey]
    rw [containsKey_eq_isSome] at hc
    have hnone : lookupScore m key = none := by
      cases h : lookupScore m key with
      | none => rfl
      | some s => rw [h] at hc; simp at hc
    by_cases hj : j = key
    · subst hj
      rw [if_pos rfl, if_pos rfl, lookupScore_append, hnone]
      simp [lookupScore, hnone]
    · rw [if_neg hj, if_neg (fun h : key = j => hj h.symm), lookupScore_append]
      cases h : lookupScore m j with
      | some s => simp
      | none =>
          simp only [lookupScore]
          rw [if_neg (fun h : key = j => hj h.symm)]

theorem scoreOf_foldl_bump_tags (ts : List String) (m : ScoreMap) (j : String) (c : Bool) :
    scoreOf (ts.foldl (fun scores tag => bumpScore scores tag c) m) j =
      ⟨(scoreOf m j).correct + (if c then countTag ts j else 0),
       (scoreOf m j).total + countTag ts j⟩ := by
  induction ts generalizing m with
  | nil =>
      simp [countTag, ite_self]
  | cons t ts ih =>
      simp only [List.foldl_cons, countTag]
      rw [ih, scoreOf_bumpScore]
      cases c <;> by_cases ht : t = j <;>
        simp [ht, Score.mk.injEq] <;> omega

theorem scoreOf_scoreQuestion (m : ScoreMap) (q : Question) (j : String) :
    scoreOf (scoreQuestion m q) j =
      ⟨(scoreOf m j).correct + questionCorrectHits q j,
       (scoreOf m j).total + questionHits q j⟩ := by
  unfold scoreQuestion questionCorrectHits questionHits
  rw [scoreOf_foldl_bump_tags, scoreOf_bumpScore]
  cases hc : q.correct.getD false <;>
    by_cases ht : q.type.getD "unknown" = j <;>
      simp [ht, Score.mk.injEq] <;> omega

theorem scoreOf_foldl_scoreQuestion (qs : List Question) (m : ScoreMap) (j : String) :
    scoreOf (qs.foldl scoreQuestion m) j =
      ⟨(scoreOf m j).correct + resultCorrectHits ⟨qs⟩ j,
       (scoreOf m j).total + resultHits ⟨qs⟩ j⟩ := by
  induction qs generalizing m with
  | nil =>
      simp [resultHits, resultCorrectHits]
  | cons q qs ih =>
      simp only [List.foldl_cons]
      rw [ih, scoreOf_scoreQuestion]
      simp only [resultHits, resultCorrectHits, List.map_cons, List.sum_cons,
        Score.mk.injEq]
      omega

theorem scoreMapWF_incrKey {m : ScoreMap} (key : String) (c : Bool)
    (h : scoreMapWF m) : scoreMapWF (incrKey m key c) := by
  induction m with
  | nil => simpa [incrKey] using h
  | cons p rest ih =>
      obtain ⟨k, s⟩ := p
      have hhead : s.correct ≤ s.total := h (k, s) (List.mem_cons_self _ _)
      have htail : scoreMapWF rest := fun q hq => h q (List.mem_cons_of_mem _ hq)
      simp only [incrKey]
      by_cases hk : k = key
      · rw [if_pos hk]
        intro p hp
        rcases List.mem_cons.mp hp with rfl | hp
        · show s.correct + (if c = true then 1 else 0) ≤ s.total + 1
          split_ifs <;> omega
        · exact htail p hp
      · rw [if_neg hk]
        intro p hp
        rcases List.mem_cons.mp hp with rfl | hp
        · exact hhead
        · exact ih htail p hp

theorem scoreMapWF_bumpScore {m : ScoreMap} (key : String) (c : Bool)
    (h : scoreMapWF m) : scoreMapWF (bumpScore m key c) := by
  unfold bumpScore
  split_ifs with hc
  · exact scoreMapWF_incrKey key c h
  · refine scoreMapWF_incrKey key c ?_
    intro p hp
    rcases List.mem_append.mp hp with hp | hp
    · exact h p hp
    · rcases List.mem_singleton.mp hp with rfl
      exact Nat.le_refl 0

theorem scoreMapWF_foldl_bump_tags {m : ScoreMap} (ts : List String) (c : Bool)
    (h : scoreMapWF m) :
    scoreMapWF (ts.foldl (fun scores tag => bumpScore scores tag c) m) := by
  induction ts generalizing m with
  | nil => exact h
  | cons t ts ih =>
      simp only [List.foldl_cons]
      exact ih (scoreMapWF_bumpScore t c h)

theorem scoreMapWF_scoreQuestion {m : ScoreMap} (q : Question)
    (h : scoreMapWF m) : scoreMapWF (scoreQuestion m q) := by
  unfold scoreQuestion
  exact scoreMapWF_foldl_bump_tags _ _ (scoreMapWF_bumpScore _ _ h)

theorem scoreMapWF_foldl_scoreQuestion {m : ScoreMap} (qs : List Question)
    (h : scoreMapWF m) : scoreMapWF (qs.foldl scoreQuestion m) := by
  induction qs generalizing m with
  | nil => exact h
  | cons q qs ih =>
      simp only [List.foldl_cons]
      exact ih (scoreMapWF_scoreQuestion q h)

theorem scoreOf_wf {m : ScoreMap} (h : scoreMapWF m) (j : String) :
    (scoreOf m j).correct ≤ (scoreOf m j).total := by
  unfold scoreOf
  cases hl : lookupScore m j with
  | none => exact Nat.le_refl 0
  | some s => exact h (j, s) (lookupScore_mem m j s hl)

theorem merge_topic_scores_eq (s : ProjectState) (r : QuizResult) :
    (merge_result_into_state s r).topic_scores
      = some (r.questions.foldl scoreQuestion (s.topic_scores.getD [])) := by
  obtain ⟨p, ss, pq, cq, ts⟩ := s
  cases ts <;> rfl

theorem calculate_topic_scores_eq_foldl (results : List QuizResult) :
    calculate_topic_scores results
      = results.foldl (fun scores result => result.questions.foldl scoreQuestion scores)
          [] := rfl

theorem foldl_if_append_eq_filter {α : Type} (p : α → Bool) (l acc : List α) :
    l.foldl (fun due x => if p x then due ++ [x] else due) acc = acc ++ l.filter p := by
  induction l generalizing acc with
  | nil => simp
  | cons q l ih =>
      simp only [List.foldl_cons, List.filter_cons]
      by_cases hq : p q
      · simp [hq, ih]
      · simp [hq, ih]

theorem get_due_quizzes_eq_filter (state : ProjectState) (now : DateTime) :
    get_due_quizzes state now
      = state.pending_quizzes.filter (fun q => DateTime.le q.scheduled_for now) := by
  unfold get_due_quizzes
  simpa using
    foldl_if_append_eq_filter (fun q => DateTime.le q.scheduled_for now)
      state.pending_quizzes []

/-! ## Claim theorems -/

/-- C5: with the default configuration, `should_schedule_quiz` returns false
exactly when the session duration is below 15 minutes or the recorded
activities are below 5 (missing values read as 0), and the boundary summary
with exactly 15 minutes and 5 activities is eligible. -/
theorem should_schedule_quiz_false_iff (summary : SessionSummary) :
    (should_schedule_quiz summary DEFAULT_CONFIG = false ↔
      summary.duration_minutes.getD 0 < 15 ∨
        (summary.stats.getD ⟨none⟩).total_activities.getD 0 < 5) ∧
    should_schedule_quiz ⟨some 15, some ⟨some 5⟩⟩ DEFAULT_CONFIG = true := by
  refine ⟨?_, rfl⟩
  simp only [should_schedule_quiz, DEFAULT_CONFIG]
  split_ifs with h1 h2 <;> simp_all

/-- C10: a summary missing `duration_minutes`, missing `stats`, or whose
`stats` lacks `total_activities`, reads the missing value as 0 and is
therefore ineligible under the default configuration. -/
theorem should_schedule_quiz_missing_field_false (summary : SessionSummary)
    (h : summary.duration_minutes = none ∨ summary.stats = none ∨
      ∃ st, summary.stats = some st ∧ st.total_activities = none) :
    should_schedule_quiz summary DEFAULT_CONFIG = false := by
  rcases h with h | h | ⟨st, hst, hta⟩
  · simp [should_schedule_quiz, DEFAULT_CONFIG, h]
  · simp only [should_schedule_quiz, DEFAULT_CONFIG, h, Option.getD_none]
    split_ifs <;> simp_all
  · simp only [should_schedule_quiz, DEFAULT_CONFIG, hst, hta, Option.getD_some,
      Option.getD_none]
    split_ifs <;> simp_all

theorem should_schedule_quiz_missing_field_false_witness :
    (({ duration_minutes := none, stats := none } : SessionSummary).duration_minutes = none ∨
      ({ duration_minutes := none, stats := none } : SessionSummary).stats = none ∨
      ∃ st, ({ duration_minutes := none, stats := none } : SessionSummary).stats = some st ∧
        st.total_activities = none) ∧
    should_schedule_quiz { duration_minutes := none, stats := none } DEFAULT_CONFIG = false :=
  ⟨Or.inl rfl,
    should_schedule_quiz_missing_field_false { duration_minutes := none, stats := none }
      (Or.inl rfl)⟩

/-- C6: when the state file is missing or holds malformed JSON,
`load_quiz_state` returns the default state — project name from the
directory, all three lists empty — and `get_due_quizzes` on it is empty. -/
theorem load_quiz_state_default_state (project_name : String) (now : DateTime) :
    (load_quiz_state project_name .missing).project = project_name ∧
    (load_quiz_state project_name .missing).sessions = [] ∧
    (load_quiz_state project_name .missing).pending_quizzes = [] ∧
    (load_quiz_state project_name .missing).completed_quizzes = [] ∧
    load_quiz_state project_name .malformed = load_quiz_state project_name .missing ∧
    get_due_quizzes (load_quiz_state project_name .missing) now = [] ∧
    get_due_quizzes (load_quiz_state project_name .malformed) now = [] :=
  ⟨rfl, rfl, rfl, rfl, rfl, rfl, rfl⟩

/-- C8: deserializing a quiz dict whose `"type"` string is not one of the
four known wire values fails (raises `ValueError`, modelled as `none`)
instead of mapping the string to any `ScheduleType`. -/
theorem from_dict_unknown_type_fails (data : QuizDict) (now : DateTime)
    (h : data.type ∉ (["same_day", "next_day", "weekly", "on_demand"] : List String)) :
    QuizSchedule.from_dict data now = none := by
  simp only [List.mem_cons, List.not_mem_nil, or_false, not_or] at h
  obtain ⟨h1, h2, h3, h4⟩ := h
  simp [QuizSchedule.from_dict, ScheduleType.ofValue, h1, h2, h3, h4]

theorem from_dict_unknown_type_fails_witness :
    ({ session_id := "s", type := "bogus", scheduled_for := ⟨0, 0⟩, summary_path := "p",
        created_at := none } : QuizDict).type ∉
      (["same_day", "next_day", "weekly", "on_demand"] : List String) ∧
    QuizSchedule.from_dict
      { session_id := "s", type := "bogus", scheduled_for := ⟨0, 0⟩, summary_path := "p",
        created_at := none } ⟨0, 0⟩ = none :=
  ⟨by decide,
    from_dict_unknown_type_fails
      { session_id := "s", type := "bogus", scheduled_for := ⟨0, 0⟩, summary_path := "p",
        created_at := none } ⟨0, 0⟩ (by decide)⟩

/-- C1: a `WEEKLY` schedule lands on the configured weekday, strictly after
today and at most 7 calendar days ahead, at exactly 09:00:00.000. -/
theorem schedule_quiz_weekly_spec (session_id summary_path : String) (config : Config)
    (now : DateTime) (h0 : 0 ≤ config.weekly_day) (h6 : config.weekly_day ≤ 6) :
    (schedule_quiz session_id .WEEKLY summary_path config now).scheduled_for.weekday
        = config.weekly_day ∧
    0 < (schedule_quiz session_id .WEEKLY summary_path config now).scheduled_for.day
        - now.day ∧
    (schedule_quiz session_id .WEEKLY summary_path config now).scheduled_for.day
        - now.day ≤ 7 ∧
    (schedule_quiz session_id .WEEKLY summary_path config now).scheduled_for.usec
        = 32400000000 := by
  simp only [schedule_quiz, DateTime.weekday, DateTime.addDays, DateTime.replaceTime]
  refine ⟨?_, ?_, ?_, by norm_num⟩ <;>
    · split_ifs with h <;> omega

theorem schedule_quiz_weekly_spec_witness :
    (0 ≤ DEFAULT_CONFIG.weekly_day ∧ DEFAULT_CONFIG.weekly_day ≤ 6) ∧
    ((schedule_quiz "s" .WEEKLY "p" DEFAULT_CONFIG ⟨0, 0⟩).scheduled_for.weekday
        = DEFAULT_CONFIG.weekly_day ∧
      0 < (schedule_quiz "s" .WEEKLY "p" DEFAULT_CONFIG ⟨0, 0⟩).scheduled_for.day
          - (⟨0, 0⟩ : DateTime).day ∧
      (schedule_quiz "s" .WEEKLY "p" DEFAULT_CONFIG ⟨0, 0⟩).scheduled_for.day
          - (⟨0, 0⟩ : DateTime).day ≤ 7 ∧
      (schedule_quiz "s" .WEEKLY "p" DEFAULT_CONFIG ⟨0, 0⟩).scheduled_for.usec
          = 32400000000) :=
  ⟨⟨by decide, by decide⟩,
    schedule_quiz_weekly_spec "s" "p" DEFAULT_CONFIG ⟨0, 0⟩ (by decide) (by decide)⟩

/-- C2: `get_due_quizzes` returns exactly the pending entries whose
`scheduled_for` is at or before `now` (inclusive — an entry scheduled for
exactly `now` is returned), in the original order of `pending_quizzes`. -/
theorem get_due_quizzes_spec (state : ProjectState) (now : DateTime) :
    get_due_quizzes state now
        = state.pending_quizzes.filter (fun q => DateTime.le q.scheduled_for now) ∧
    (∀ q, q ∈ get_due_quizzes state now ↔
        q ∈ state.pending_quizzes ∧ DateTime.le q.scheduled_for now = true) ∧
    List.Sublist (get_due_quizzes state now) state.pending_quizzes ∧
    (∀ q ∈ state.pending_quizzes, q.scheduled_for = now →
        q ∈ get_due_quizzes state now) := by
  have hfilter := get_due_quizzes_eq_filter state now
  refine ⟨hfilter, ?_, ?_, ?_⟩
  · intro q
    rw [hfilter, List.mem_filter]
  · rw [hfilter]
    exact List.filter_sublist _
  · intro q hq hnow
    rw [hfilter, List.mem_filter]
    refine ⟨hq, ?_⟩
    simp [hnow, DateTime.le]

/-- C3: `mark_quiz_completed` removes every pending entry carrying the
session id (duplicates included) and appends exactly one completion record;
afterwards the session id is in neither `pending_quizzes` nor any due list,
and the lifecycle operations never move a completion record back to pending:
`add_pending_quiz` and `merge_result_into_state` leave `completed_quizzes`
unchanged, a further `mark_quiz_completed` only appends to it, and pending
only changes by the explicit filter or the explicit appended schedule. -/
theorem mark_quiz_completed_spec (state : ProjectState) (session_id : String)
    (result : QuizResult) (now : DateTime) :
    (mark_quiz_completed state session_id result now).pending_quizzes
        = state.pending_quizzes.filter (fun q => q.session_id ≠ session_id) ∧
    (mark_quiz_completed state session_id result now).completed_quizzes
        = state.completed_quizzes ++
            [{ session_id := session_id, completed_at := now, result := result }] ∧
    (∀ q ∈ (mark_quiz_completed state session_id result now).pending_quizzes,
        q.session_id ≠ session_id) ∧
    (∀ t q, q ∈ get_due_quizzes (mark_quiz_completed state session_id result now) t →
        q.session_id ≠ session_id) ∧
    (∀ sch,
        (add_pending_quiz (mark_quiz_completed state session_id result now) sch).completed_quizzes
          = (mark_quiz_completed state session_id result now).completed_quizzes ∧
        (add_pending_quiz (mark_quiz_completed state session_id result now) sch).pending_quizzes
          = (mark_quiz_completed state session_id result now).pending_quizzes
              ++ [sch.to_dict]) ∧
    (∀ r,
        (merge_result_into_state (mark_quiz_completed state session_id result now) r).completed_quizzes
          = (mark_quiz_completed state session_id result now).completed_quizzes ∧
        (merge_result_into_state (mark_quiz_completed state session_id result now) r).pending_quizzes
          = (mark_quiz_completed state session_id result now).pending_quizzes) ∧
    (∀ sid r t, ∃ tail,
        (mark_quiz_completed (mark_quiz_completed state session_id result now) sid r t).completed_quizzes
          = (mark_quiz_completed state session_id result now).completed_quizzes
              ++ tail) := by
  have hmem : ∀ q ∈ (mark_quiz_completed state session_id result now).pending_quizzes,
      q.session_id ≠ session_id := by
    intro q hq
    have hdec := (List.mem_filter.mp hq).2
    simpa using hdec
  refine ⟨rfl, rfl, hmem, ?_, fun sch => ⟨rfl, rfl⟩, fun r => ⟨rfl, rfl⟩,
    fun sid r t => ⟨_, rfl⟩⟩
  intro t q hq
  rw [get_due_quizzes_eq_filter] at hq
  exact hmem q (List.mem_filter.mp hq).1

/-- C4: merging a result bumps, for every bucket key, `total` by the number
of touches (once per question whose type is the key, once per matching tag
occurrence) and `correct` by the touches of questions marked correct, with
missing buckets starting from zero counters; the concrete double merge of a
correct then an incorrect type-`A` question into an empty state yields the
`A` bucket `{correct := 1, total := 2}`. -/
theorem merge_result_bucket_counts (state : ProjectState) (result : QuizResult)
    (j : String) :
    scoreOf ((merge_result_into_state state result).topic_scores.getD []) j
      = ⟨(scoreOf (state.topic_scores.getD []) j).correct + resultCorrectHits result j,
         (scoreOf (state.topic_scores.getD []) j).total + resultHits result j⟩ ∧
    (merge_result_into_state
        (merge_result_into_state
          { project := "p", sessions := [], pending_quizzes := [],
            completed_quizzes := [], topic_scores := none }
          ⟨[{ type := some "A", correct := some true, tags := none }]⟩)
        ⟨[{ type := some "A", correct := some false, tags := none }]⟩).topic_scores
      = some [("A", ⟨1, 2⟩)] := by
  constructor
  · rw [merge_topic_scores_eq]
    simp only [Option.getD_some]
    obtain ⟨qs⟩ := result
    exact scoreOf_foldl_scoreQuestion qs _ j
  · rfl

/-- C7: the stateless `calculate_topic_scores` recomputation coincides with
folding `merge_result_into_state` over the same results starting from a
state whose `topic_scores` table is empty. -/
theorem calculate_topic_scores_refines_merge (results : List QuizResult)
    (project : String) (sessions : List String) (pending : List PendingQuiz)
    (completed : List CompletedQuiz) :
    calculate_topic_scores results
      = ((results.foldl merge_result_into_state
            { project := project, sessions := sessions, pending_quizzes := pending,
              completed_quizzes := completed,
              topic_scores := some [] }).topic_scores).getD [] := by
  have key : ∀ (rs : List QuizResult) (s : ProjectState),
      ((rs.foldl merge_result_into_state s).topic_scores).getD []
        = rs.foldl (fun scores result => result.questions.foldl scoreQuestion scores)
            (s.topic_scores.getD []) := by
    intro rs
    induction rs with
    | nil => intro s; rfl
    | cons r rs ih =>
        intro s
        simp only [List.foldl_cons]
        rw [ih, merge_topic_scores_eq]
        simp
  rw [calculate_topic_scores_eq_foldl, key]
  rfl

/-- C9: merging never decreases any bucket's counters, and when every bucket
of the incoming state satisfies `correct ≤ total` so does every bucket the
merge writes (buckets it creates start at zero counters). -/
theorem merge_result_counters_monotone (state : ProjectState) (result : QuizResult)
    (j : String) (hwf : scoreMapWF (state.topic_scores.getD [])) :
    (scoreOf (state.topic_scores.getD []) j).correct
        ≤ (scoreOf ((merge_result_into_state state result).topic_scores.getD []) j).correct ∧
    (scoreOf (state.topic_scores.getD []) j).total
        ≤ (scoreOf ((merge_result_into_state state result).topic_scores.getD []) j).total ∧
    scoreMapWF ((merge_result_into_state state result).topic_scores.getD []) ∧
    (scoreOf ((merge_result_into_state state result).topic_scores.getD []) j).correct
        ≤ (scoreOf ((merge_result_into_state state result).topic_scores.getD []) j).total := by
  have hts : (merge_result_into_state state result).topic_scores.getD []
      = result.questions.foldl scoreQuestion (state.topic_scores.getD []) := by
    rw [merge_topic_scores_eq, Option.getD_some]
  have hcount := scoreOf_foldl_scoreQuestion result.questions
    (state.topic_scores.getD []) j
  have hwf' : scoreMapWF ((merge_result_into_state state result).topic_scores.getD []) := by
    rw [hts]
    exact scoreMapWF_foldl_scoreQuestion result.questions hwf
  obtain ⟨qs⟩ := result
  rw [hts]
  refine ⟨?_, ?_, ?_, ?_⟩
  · rw [hcount]
    exact Nat.le_add_right _ _
  · rw [hcount]
    exact Nat.le_add_right _ _
  · rw [← hts]
    exact hwf'
  · rw [← hts]
    exact scoreOf_wf hwf' j

theorem merge_result_counters_monotone_witness :
    scoreMapWF (sampleState.topic_scores.getD []) ∧
    ((scoreOf (sampleState.topic_scores.getD []) "A").correct
        ≤ (scoreOf ((merge_result_into_state sampleState
              sampleResult).topic_scores.getD []) "A").correct ∧
      (scoreOf (sampleState.topic_scores.getD []) "A").total
        ≤ (scoreOf ((merge_result_into_state sampleState
              sampleResult).topic_scores.getD []) "A").total ∧
      scoreMapWF ((merge_result_into_state sampleState
          sampleResult).topic_scores.getD []) ∧
      (scoreOf ((merge_result_into_state sampleState
            sampleResult).topic_scores.getD []) "A").correct
        ≤ (scoreOf ((merge_result_into_state sampleState
              sampleResult).topic_scores.getD []) "A").total) :=
  ⟨by simp [scoreMapWF, sampleState],
    merge_result_counters_monotone sampleState sampleResult "A"
      (by simp [scoreMapWF, sampleState])⟩

end QuizHook
